import Mathlib

/-!
Verification development for the core codec infrastructure of the
as3lib-miniAMF repository (`miniamf/_accel/codec.pyx`).

The development shallowly embeds the data model and the operations of the
codec module:

* `IndexedCollection` / `ByteStringReferenceCollection` — the reference
  tables used by AMF contexts (codec.pyx lines 35–213).  The C array
  `data` plus its `length` field are rendered as a Lean `List`; the Python
  dict `refs` is rendered as an association list where later insertions
  shadow earlier ones.  The `_ref` key of an object is, per the source,
  the object's address (`PyLong_FromVoidPtr`), its hash (`use_hash`
  mode), or — for `ByteStringReferenceCollection` — the byte string
  itself, whose dict-key behaviour is content equality.
* `Encoder.handleBasicTypes`, `Encoder.checkBadTypes`,
  `Encoder.writeElement`, `get_custom_type_func` and
  `_CustomTypeFunc.__call__` — the encoder's type dispatch
  (codec.pyx lines 555–706).  The `if`/`elif` chain of
  `handleBasicTypes` is rendered as a first-match scan over an ordered
  check table so that the testing order itself is part of the model.
* `Decoder._readElement`, `Decoder.readElement`, `Decoder.finalise` and
  `Decoder.__next__` — the decoder's iterator protocol
  (codec.pyx lines 392–461).  The concrete per-marker reader
  (`readConcreteElement`) is abstract in codec.pyx (it raises
  `NotImplementedError`), so the decoder model is parametric in it.

Python values are modelled by the inductive `PyValue`: one constructor
per value kind the dispatch distinguishes, with opaque `Nat` payloads
where the payload does not matter for dispatch.  Subclassing plays no
role in the modelled claims, so each constructor stands for an exact
instance of its kind.
-/

/-- A Python object as seen by a reference table: an address (identity),
a hash value, and — when it is a byte string — its byte content. -/
structure PyObj where
  oid : Nat
  hsh : Int
  content : List Nat
deriving DecidableEq, Repr

/-- The key under which a reference table stores an object, as produced
by the `_ref` methods of codec.pyx. -/
inductive RefKey where
  | kId (n : Nat)
  | kHash (h : Int)
  | kContent (s : List Nat)
deriving DecidableEq, Repr

/-- Which `_ref` implementation a table uses: `IndexedCollection` with
`use_hash=False` keys by identity (`PyLong_FromVoidPtr`, codec.pyx:124),
with `use_hash=True` by `hash(obj)` (codec.pyx:122), and the subclass
`ByteStringReferenceCollection` by the byte string itself
(codec.pyx:207–208), i.e. by content. -/
inductive RefMode where
  | byId
  | byHash
  | byContent
deriving DecidableEq, Repr

/-- Model of `_ref(obj)` (codec.pyx:120–124 and 207–208). -/
def refKey (m : RefMode) (obj : PyObj) : RefKey :=
  match m with
  | RefMode.byId => RefKey.kId obj.oid
  | RefMode.byHash => RefKey.kHash obj.hsh
  | RefMode.byContent => RefKey.kContent obj.content

/-- Lookup in the model of a Python dict: first (most recent) binding wins. -/
def dictGet (k : RefKey) (m : List (RefKey × Nat)) : Option Nat :=
  (m.find? (fun kv => decide (kv.1 = k))).map (fun kv => kv.2)

/-- The reference table of codec.pyx (lines 35–194): the object array
(`data`/`length`) as a list, the `refs` dict as an association list, and
the `_ref` mode.  `ByteStringReferenceCollection` is the same structure
with `mode = byContent`. -/
structure IndexedCollection where
  mode : RefMode
  data : List PyObj
  refs : List (RefKey × Nat)
deriving DecidableEq, Repr

/-- State of `IndexedCollection(use_hash)` right after `__init__`/`clear()`. -/
def IndexedCollection.fresh (use_hash : Bool) : IndexedCollection :=
  { mode := if use_hash then RefMode.byHash else RefMode.byId,
    data := [], refs := [] }

/-- A fresh `ByteStringReferenceCollection` (codec.pyx:197–213). -/
def ByteStringReferenceCollection.fresh : IndexedCollection :=
  { mode := RefMode.byContent, data := [], refs := [] }

/-- Model of `IndexedCollection.clear` (codec.pyx:99–112): empties the data array
and the refs dict. -/
def IndexedCollection.clear (c : IndexedCollection) : IndexedCollection :=
  { c with data := [], refs := [] }

/-- Model of `IndexedCollection.getByReference` (codec.pyx:114–118): `None` when
`ref < 0` or `ref >= self.length`, otherwise `self.data[ref]`. -/
def IndexedCollection.getByReference (c : IndexedCollection) (ref : Int) :
    Option PyObj :=
  if ref < 0 ∨ (c.data.length : Int) ≤ ref then none
  else c.data[ref.toNat]?

/-- Model of `IndexedCollection.getReferenceTo` (codec.pyx:126–132): `-1` when the
key of `obj` is absent from `refs`, otherwise the stored index. -/
def IndexedCollection.getReferenceTo (c : IndexedCollection) (obj : PyObj) :
    Int :=
  match dictGet (refKey c.mode obj) c.refs with
  | none => -1
  | some p => (p : Int)

/-- Model of `IndexedCollection.append` (codec.pyx:134–145): store
`refs[_ref(obj)] = length`, `data[length] = obj`, increment `length`,
return `length - 1` (the pre-append length). -/
def IndexedCollection.append (c : IndexedCollection) (obj : PyObj) :
    IndexedCollection × Int :=
  let h := refKey c.mode obj
  let c' := { c with refs := (h, c.data.length) :: c.refs,
                     data := c.data ++ [obj] }
  (c', (c'.data.length : Int) - 1)

/-- Folding `append` over a list of objects (discarding the returned
indices); used to speak about "later" states of a table. -/
def IndexedCollection.appendAll (c : IndexedCollection) (objs : List PyObj) :
    IndexedCollection :=
  objs.foldl (fun s o => (s.append o).1) c

/-! ## Host values and the encoder's type dispatch -/

/-- A host (Python) value, one constructor per kind the encoder's
dispatch distinguishes; `Nat` payloads are opaque identities for kinds
whose payload the dispatch never inspects.  `objV cls n` is an instance
of the user-defined class `cls`. -/
inductive PyValue where
  | bytesV (s : List Nat)
  | strV (s : List Nat)
  | noneV
  | boolV (b : Bool)
  | intV (n : Int)
  | floatV (n : Nat)
  | listV (n : Nat)
  | tupleV (n : Nat)
  | undefinedV
  | dictV (n : Nat)
  | datetimeV (n : Nat)
  | dateV (n : Nat)
  | timeV (n : Nat)
  | mixedArrayV (n : Nat)
  | generatorV (n : Nat)
  | xmlV (n : Nat)
  | moduleV (n : Nat)
  | methodV (n : Nat)
  | functionV (n : Nat)
  | builtinFunctionV (n : Nat)
  | classV (n : Nat)
  | objV (cls : Nat) (n : Nat)
deriving DecidableEq, Repr

/-- The Python type of a value (`type(element)` / `py_type` in
codec.pyx:615). -/
inductive PyType where
  | bytesT
  | strT
  | noneT
  | boolT
  | intT
  | floatT
  | listT
  | tupleT
  | undefinedT
  | dictT
  | datetimeT
  | dateT
  | timeT
  | mixedArrayT
  | generatorT
  | xmlT
  | moduleT
  | methodT
  | functionT
  | builtinFunctionT
  | classT
  | userT (cls : Nat)
deriving DecidableEq, Repr

/-- Model of `type(element)`. -/
def pyType (v : PyValue) : PyType :=
  match v with
  | PyValue.bytesV _ => PyType.bytesT
  | PyValue.strV _ => PyType.strT
  | PyValue.noneV => PyType.noneT
  | PyValue.boolV _ => PyType.boolT
  | PyValue.intV _ => PyType.intT
  | PyValue.floatV _ => PyType.floatT
  | PyValue.listV _ => PyType.listT
  | PyValue.tupleV _ => PyType.tupleT
  | PyValue.undefinedV => PyType.undefinedT
  | PyValue.dictV _ => PyType.dictT
  | PyValue.datetimeV _ => PyType.datetimeT
  | PyValue.dateV _ => PyType.dateT
  | PyValue.timeV _ => PyType.timeT
  | PyValue.mixedArrayV _ => PyType.mixedArrayT
  | PyValue.generatorV _ => PyType.generatorT
  | PyValue.xmlV _ => PyType.xmlT
  | PyValue.moduleV _ => PyType.moduleT
  | PyValue.methodV _ => PyType.methodT
  | PyValue.functionV _ => PyType.functionT
  | PyValue.builtinFunctionV _ => PyType.builtinFunctionT
  | PyValue.classV _ => PyType.classT
  | PyValue.objV cls _ => PyType.userT cls

/-- Modelled from the spec: the XML collaborator's `is_xml(value)`
predicate (the `miniamf.xml` module is not among the sources; §6 of the
spec gives its interface `is_xml(value) -> bool`).  True exactly for XML
document values. -/
def is_xml (v : PyValue) : Bool :=
  match v with
  | PyValue.xmlV _ => true
  | _ => false

/-- The write method `handleBasicTypes` dispatches to (codec.pyx
lines 555–591), one constructor per `self.write…` call in the chain. -/
inductive WriteAction where
  | writeBytes
  | writeString
  | writeNull
  | writeBoolean
  | writeLong
  | writeNumber
  | writeList
  | writeTuple
  | writeUndefined
  | writeDict
  | writeDateTime
  | writeDate
  | writeMixedArray
  | writeGenerator
  | writeObjectCall
  | writeXML
deriving DecidableEq, Repr

/-- The candidate kinds `handleBasicTypes` tests, one per branch of the
`if`/`elif` chain of codec.pyx:559–590. -/
inductive BasicKind where
  | bytesK
  | strK
  | noneK
  | boolK
  | intK
  | floatK
  | listK
  | tupleK
  | undefinedK
  | dictK
  | datetimeK
  | dateK
  | mixedArrayK
  | generatorK
  | useWriteObjectK
  | xmlK
deriving DecidableEq, Repr

/-- The test of one branch of `handleBasicTypes`.  `PyBytes_Check`,
`PyUnicode_Check` … become kind tests on `PyValue`; `element is None`
and `element is Undefined` are identity tests against singletons;
`py_type is MixedArray`, `py_type is GeneratorType` and
`PySequence_Contains(self.use_write_object, py_type)` test the type. -/
def testBasic (k : BasicKind) (uwo : List PyType) (v : PyValue) : Bool :=
  match k, v with
  | BasicKind.bytesK, PyValue.bytesV _ => true
  | BasicKind.strK, PyValue.strV _ => true
  | BasicKind.noneK, PyValue.noneV => true
  | BasicKind.boolK, PyValue.boolV _ => true
  | BasicKind.intK, PyValue.intV _ => true
  | BasicKind.floatK, PyValue.floatV _ => true
  | BasicKind.listK, PyValue.listV _ => true
  | BasicKind.tupleK, PyValue.tupleV _ => true
  | BasicKind.undefinedK, PyValue.undefinedV => true
  | BasicKind.dictK, PyValue.dictV _ => true
  | BasicKind.datetimeK, PyValue.datetimeV _ => true
  | BasicKind.dateK, PyValue.dateV _ => true
  | BasicKind.mixedArrayK, v => decide (pyType v = PyType.mixedArrayT)
  | BasicKind.generatorK, v => decide (pyType v = PyType.generatorT)
  | BasicKind.useWriteObjectK, v => uwo.contains (pyType v)
  | BasicKind.xmlK, v => is_xml v
  | _, _ => false

/-- The ordered check table of `handleBasicTypes` (codec.pyx:559–590):
the source's `if`/`elif` chain, in source order, paired with the write
method each branch dispatches to. -/
def basicChecks : List (BasicKind × WriteAction) :=
  [ (BasicKind.bytesK, WriteAction.writeBytes),
    (BasicKind.strK, WriteAction.writeString),
    (BasicKind.noneK, WriteAction.writeNull),
    (BasicKind.boolK, WriteAction.writeBoolean),
    (BasicKind.intK, WriteAction.writeLong),
    (BasicKind.floatK, WriteAction.writeNumber),
    (BasicKind.listK, WriteAction.writeList),
    (BasicKind.tupleK, WriteAction.writeTuple),
    (BasicKind.undefinedK, WriteAction.writeUndefined),
    (BasicKind.dictK, WriteAction.writeDict),
    (BasicKind.datetimeK, WriteAction.writeDateTime),
    (BasicKind.dateK, WriteAction.writeDate),
    (BasicKind.mixedArrayK, WriteAction.writeMixedArray),
    (BasicKind.generatorK, WriteAction.writeGenerator),
    (BasicKind.useWriteObjectK, WriteAction.writeObjectCall),
    (BasicKind.xmlK, WriteAction.writeXML) ]

/-- Model of `Encoder.handleBasicTypes` (codec.pyx:555–591): first matching
branch wins; `some a` is "handled by write method `a`" (return 0),
`none` is "not handled" (return 1). -/
def handleBasicTypes (uwo : List PyType) (v : PyValue) :
    Option WriteAction :=
  (basicChecks.find? (fun ka => testBasic ka.1 uwo v)).map (fun ka => ka.2)

/-- The error kinds `Encoder.checkBadTypes` raises (codec.pyx:593–611),
one per `EncodeError` message. -/
inductive BadKind where
  | moduleErr
  | methodErr
  | functionErr
  | classErr
  | timeErr
deriving DecidableEq, Repr

/-- Model of `Encoder.checkBadTypes` (codec.pyx:593–611): `some e` means the
corresponding `EncodeError` is raised, `none` means the chain fell
through (return 0). -/
def checkBadTypes (v : PyValue) : Option BadKind :=
  if pyType v = PyType.moduleT then some BadKind.moduleErr
  else if pyType v = PyType.methodT then some BadKind.methodErr
  else if pyType v = PyType.functionT ∨ pyType v = PyType.builtinFunctionT
    then some BadKind.functionErr
  else if pyType v = PyType.classT then some BadKind.classErr
  else if pyType v = PyType.timeT then some BadKind.timeErr
  else none

/-- The host-value kinds the spec calls unencodable: a module, a method,
a free or builtin function, a class object, or a bare `datetime.time`. -/
def isBadHost (v : PyValue) : Bool :=
  match v with
  | PyValue.moduleV _ => true
  | PyValue.methodV _ => true
  | PyValue.functionV _ => true
  | PyValue.builtinFunctionV _ => true
  | PyValue.classV _ => true
  | PyValue.timeV _ => true
  | _ => false

/-- A `TYPE_MAP` adapter function: `fn(value, encoder)` returning `none`
(the adapter wrote directly) or a replacement value. -/
def Adapter : Type := PyValue → Option PyValue

/-- A `TYPE_MAP` predicate: a class identity, or an arbitrary callable
returning a boolean. -/
inductive TPred where
  | byClass (t : PyType)
  | byCallable (f : PyValue → Bool)

/-- The predicate test of `get_custom_type_func` (codec.pyx:698–704):
`isinstance(data, type_)` when `type_` is a class; on the `TypeError`
of a non-class, `callable(type_) and type_(data)`. -/
def predMatches (p : TPred) (v : PyValue) : Bool :=
  match p with
  | TPred.byClass t => decide (pyType v = t)
  | TPred.byCallable f => f v

/-- Model of `get_custom_type_func` (codec.pyx:695–706): the first entry of
`TYPE_MAP` (in order) whose predicate matches yields its adapter;
otherwise `None`. -/
def get_custom_type_func (tm : List (TPred × Adapter)) (v : PyValue) :
    Option Adapter :=
  (tm.find? (fun e => predMatches e.1 v)).map (fun e => e.2)

/-- Model of `self.func_cache.get(py_type, None)` (codec.pyx:622). -/
def fcLookup (fc : List (PyType × Adapter)) (t : PyType) : Option Adapter :=
  (fc.find? (fun e => decide (e.1 = t))).map (fun e => e.2)

/-- One dispatch step of `Encoder.writeElement`.  `customRecursed r`
records that the matched adapter returned the replacement `r`, on which
`_CustomTypeFunc.__call__` re-enters `writeElement` (codec.pyx:692);
the recursion itself is not unfolded.  `objectPath true` is the
`writeSequence` fallback for list/tuple instances, `objectPath false`
the `writeObject` fallback (codec.pyx:631–634). -/
inductive EncodeOutcome where
  | wrote (a : WriteAction)
  | customWrote
  | customRecursed (r : PyValue)
  | encodeError (e : BadKind)
  | objectPath (isSeq : Bool)

/-- Model of `_CustomTypeFunc.__call__` (codec.pyx:688–692): run the adapter;
`None` means it has written directly, anything else is re-dispatched
through `writeElement`. -/
def customTypeCall (f : Adapter) (v : PyValue) : EncodeOutcome :=
  match f v with
  | none => EncodeOutcome.customWrote
  | some r => EncodeOutcome.customRecursed r

/-- Model of `isinstance(element, (list, tuple))` on the fallback path
(codec.pyx:631). -/
def isListOrTuple (v : PyValue) : Bool :=
  match v with
  | PyValue.listV _ => true
  | PyValue.tupleV _ => true
  | _ => false

/-- Model of `Encoder.writeElement` (codec.pyx:613–640), as the dispatch decision
it takes for one value: basic types first; on fall-through the
`func_cache`, then `TYPE_MAP` via `get_custom_type_func`; only when both
miss, `checkBadTypes` may raise; otherwise the `writeSequence` /
`writeObject` fallback.  The state updates (`func_cache` fill,
`use_write_object.append`) do not change this value's dispatch and are
not part of the outcome. -/
def writeElement (tm : List (TPred × Adapter)) (fc : List (PyType × Adapter))
    (uwo : List PyType) (v : PyValue) : EncodeOutcome :=
  match handleBasicTypes uwo v with
  | some a => EncodeOutcome.wrote a
  | none =>
    match fcLookup fc (pyType v) with
    | some f => customTypeCall f v
    | none =>
      match get_custom_type_func tm v with
      | some f => customTypeCall f v
      | none =>
        match checkBadTypes v with
        | some e => EncodeOutcome.encodeError e
        | none => EncodeOutcome.objectPath (isListOrTuple v)

/-! ## The decoder's iterator protocol -/

/-- The decoder's buffered byte stream, reduced to what
`Decoder._readElement` touches: the buffered bytes and the cursor
(`tell`/`seek`). -/
structure DecStream where
  data : List Nat
  pos : Nat
deriving DecidableEq, Repr

/-- Model of `stream.at_eof()`: cursor at or past the end. -/
def DecStream.at_eof (s : DecStream) : Bool :=
  decide (s.data.length ≤ s.pos)

/-- Model of `stream.read_char()`: the byte at the cursor, cursor advanced. -/
def DecStream.read_char (s : DecStream) : Nat × DecStream :=
  (s.data.getD s.pos 0, { s with pos := s.pos + 1 })

/-- The errors a decode step can raise: `miniamf.EOStream` (the
value-boundary end-of-stream signal), an `IOError` (the byte stream ran
dry mid-value), or any other error. -/
inductive DecErr where
  | eos
  | ioError (n : Nat)
  | otherErr (n : Nat)
deriving DecidableEq, Repr

/-- Which errors the `except IOError` handler of `_readElement`
(codec.pyx:406) catches. -/
def DecErr.isIOError : DecErr → Bool
  | DecErr.ioError _ => true
  | _ => false

/-- The marker-dispatched reader `readConcreteElement`: abstract in
codec.pyx (line 426–430 raises `NotImplementedError`; the AMF0/AMF3
subclasses provide it), so the decoder model takes it as a parameter.
It receives the marker byte and the advanced stream and returns the
final stream together with a value or an error. -/
def ReadConcrete : Type :=
  Nat → DecStream → DecStream × Except DecErr PyValue

/-- Model of `Decoder._readElement` (codec.pyx:392–409): remember `pos`; raise
`EOStream` at eof before reading the marker; otherwise read the marker
and run `readConcreteElement`, seeking back to `pos` when it fails with
an `IOError` (the error still propagates). -/
def readElementRaw (rc : ReadConcrete) (s : DecStream) :
    DecStream × Except DecErr PyValue :=
  let pos := s.pos
  if s.at_eof then (s, Except.error DecErr.eos)
  else
    let ts := s.read_char
    match rc ts.1 ts.2 with
    | (s2, Except.ok v) => (s2, Except.ok v)
    | (s2, Except.error e) =>
      if e.isIOError then ({ s2 with pos := pos }, Except.error e)
      else (s2, Except.error e)

/-- Model of `Decoder.finalise` (codec.pyx:451–461): fold the registered
`POST_DECODE_PROCESSORS` over the payload, in order. -/
def finalise (procs : List (PyValue → PyValue)) (v : PyValue) : PyValue :=
  procs.foldl (fun payload c => c payload) v

/-- Model of `Decoder.readElement` (codec.pyx:411–424) called at decoder depth
`depth`: increment the depth, run `_readElement`, decrement the depth in
the `finally`; apply `finalise` only when the restored depth is 0 (a
top-level call) and only to a successfully decoded element. -/
def readElement (rc : ReadConcrete) (procs : List (PyValue → PyValue))
    (depth : Nat) (s : DecStream) : DecStream × Except DecErr PyValue :=
  match readElementRaw rc s with
  | (s1, Except.ok v) =>
    (s1, Except.ok (if depth = 0 then finalise procs v else v))
  | (s1, Except.error e) => (s1, Except.error e)

/-- What `Decoder.__next__` does: produce a value, end the iteration, or
let an error escape. -/
inductive NextOutcome where
  | value (v : PyValue)
  | stopIteration
  | raised (e : DecErr)
deriving DecidableEq, Repr

/-- Model of `Decoder.__next__` (codec.pyx:438–446): a top-level `readElement`;
`miniamf.EOStream` becomes `StopIteration`; every other error
propagates unchanged. -/
def decoderNext (rc : ReadConcrete) (procs : List (PyValue → PyValue))
    (s : DecStream) : DecStream × NextOutcome :=
  match readElement rc procs 0 s with
  | (s1, Except.ok v) => (s1, NextOutcome.value v)
  | (s1, Except.error DecErr.eos) => (s1, NextOutcome.stopIteration)
  | (s1, Except.error e) => (s1, NextOutcome.raised e)

/-! ## Helper lemmas about the reference tables -/

/-- Appending returns the state with the new binding and the new entry. -/
theorem append_fst_eq (c : IndexedCollection) (o : PyObj) :
    (c.append o).1 = { c with refs := (refKey c.mode o, c.data.length) :: c.refs,
                              data := c.data ++ [o] } := rfl

/-- Appending returns the pre-append length as the index. -/
theorem append_snd_eq (c : IndexedCollection) (o : PyObj) :
    (c.append o).2 = (c.data.length : Int) := by
  simp [IndexedCollection.append]

/-- Dict lookup skips a binding with a different key. -/
theorem dictGet_cons_ne (k k' : RefKey) (n : Nat) (m : List (RefKey × Nat))
    (h : k' ≠ k) : dictGet k ((k', n) :: m) = dictGet k m := by
  simp [dictGet, List.find?, h]

/-- Appends never change the table's `_ref` mode. -/
theorem appendAll_mode (objs : List PyObj) (c : IndexedCollection) :
    (c.appendAll objs).mode = c.mode := by
  induction objs generalizing c with
  | nil => rfl
  | cons o objs ih => exact ih ((c.append o).1)

/-- Appends extend the data array on the right, in order. -/
theorem appendAll_data (objs : List PyObj) (c : IndexedCollection) :
    (c.appendAll objs).data = c.data ++ objs := by
  induction objs generalizing c with
  | nil => simp [IndexedCollection.appendAll]
  | cons o objs ih =>
    show ((c.append o).1.appendAll objs).data = _
    rw [ih]
    simp [IndexedCollection.append]

/-- Appending objects whose reference keys differ from that of `obj`
leaves `getReferenceTo obj` unchanged. -/
theorem getReferenceTo_appendAll_ne (objs : List PyObj) (c : IndexedCollection)
    (obj : PyObj) (h : ∀ o ∈ objs, refKey c.mode o ≠ refKey c.mode obj) :
    (c.appendAll objs).getReferenceTo obj = c.getReferenceTo obj := by
  induction objs generalizing c with
  | nil => rfl
  | cons o objs ih =>
    show ((c.append o).1.appendAll objs).getReferenceTo obj = _
    rw [ih]
    · show IndexedCollection.getReferenceTo _ obj = _
      unfold IndexedCollection.getReferenceTo
      rw [show (c.append o).1.mode = c.mode from rfl]
      rw [show (c.append o).1.refs = (refKey c.mode o, c.data.length) :: c.refs from rfl]
      rw [dictGet_cons_ne _ _ _ _ (h o (List.mem_cons_self o objs))]
    · intro o' ho'
      rw [show (c.append o).1.mode = c.mode from rfl]
      exact h o' (List.mem_cons_of_mem o ho')

/-! ## Claim theorems -/

/-- C1: for every reference table and every object, `append(obj)` returns
an index exactly equal to the table's length immediately before the
append (and the append grows the table by one, so successive appends
receive the indices 0, 1, 2, … in insertion order). -/
theorem append_returns_prior_length (c : IndexedCollection) (obj : PyObj) :
    (c.append obj).2 = (c.data.length : Int) ∧
    (c.append obj).1.data.length = c.data.length + 1 :=
  ⟨append_snd_eq c obj, by simp [IndexedCollection.append]⟩

/-- C2 counterexample: the claim fails as stated.  Append the same object
twice to a fresh identity-keyed table, with no `clear()` in between: the
object was appended at index 0, yet a later `getReferenceTo` returns 1,
not 0 — the `refs` entry for the object's key was overwritten by the
second append. -/
theorem getReferenceTo_returns_later_index :
    ((IndexedCollection.fresh false).append ⟨1, 0, []⟩).2 = 0 ∧
    (((IndexedCollection.fresh false).append ⟨1, 0, []⟩).1.append
        ⟨1, 0, []⟩).1.getReferenceTo ⟨1, 0, []⟩ = 1 := by decide

/-- C2 (amended): for every object `obj` appended to a reference table at
index `i` (with `clear()` not called in between), and as long as no
subsequently appended object shares `obj`'s reference key (the same
object again, a hash-colliding object in `use_hash` mode, or an
equal-content byte string), a later `getReferenceTo(obj)` returns `i` —
a hit, not the miss value −1 — and `getByReference(i)` returns the
identical in-memory object `obj`. -/
theorem getReferenceTo_after_append (c : IndexedCollection) (obj : PyObj)
    (objs : List PyObj)
    (h : ∀ o ∈ objs, refKey c.mode o ≠ refKey c.mode obj) :
    ((c.append obj).1.appendAll objs).getReferenceTo obj = (c.append obj).2 ∧
    ((c.append obj).1.appendAll objs).getByReference (c.append obj).2
      = some obj := by
  have hmode : (c.append obj).1.mode = c.mode := rfl
  constructor
  · rw [getReferenceTo_appendAll_ne objs _ obj (by rw [hmode]; exact h)]
    rw [append_snd_eq]
    unfold IndexedCollection.getReferenceTo
    rw [hmode, show (c.append obj).1.refs
      = (refKey c.mode obj, c.data.length) :: c.refs from rfl]
    simp [dictGet, List.find?]
  · rw [append_snd_eq]
    unfold IndexedCollection.getByReference
    rw [appendAll_data]
    rw [show (c.append obj).1.data = c.data ++ [obj] from rfl]
    have hlen : ((c.data ++ [obj]) ++ objs).length
        = c.data.length + 1 + objs.length := by
      simp
      omega
    rw [if_neg]
    · have : ((c.data.length : Int)).toNat = c.data.length := by simp
      rw [this, List.append_assoc, List.getElem?_append_right (Nat.le_refl _)]
      simp
    · push_neg
      constructor
      · positivity
      · rw [hlen]
        push_cast
        omega

/-- Witness for C2 (amended), at a fresh identity-keyed table: append
object 1, then an object with a different identity; `getReferenceTo`
still returns the original index and `getByReference` the original
object. -/
theorem getReferenceTo_after_append_witness :
    (∀ o ∈ [(⟨2, 0, []⟩ : PyObj)],
      refKey (IndexedCollection.fresh false).mode o
        ≠ refKey (IndexedCollection.fresh false).mode ⟨1, 0, []⟩) ∧
    (((IndexedCollection.fresh false).append ⟨1, 0, []⟩).1.appendAll
        [⟨2, 0, []⟩]).getReferenceTo ⟨1, 0, []⟩
      = ((IndexedCollection.fresh false).append ⟨1, 0, []⟩).2 ∧
    (((IndexedCollection.fresh false).append ⟨1, 0, []⟩).1.appendAll
        [⟨2, 0, []⟩]).getByReference
        ((IndexedCollection.fresh false).append ⟨1, 0, []⟩).2
      = some ⟨1, 0, []⟩ :=
  ⟨by decide,
   (getReferenceTo_after_append (IndexedCollection.fresh false) ⟨1, 0, []⟩
      [⟨2, 0, []⟩] (by decide)).1,
   (getReferenceTo_after_append (IndexedCollection.fresh false) ⟨1, 0, []⟩
      [⟨2, 0, []⟩] (by decide)).2⟩

/-- C3: a `ByteStringReferenceCollection` identifies entries by content —
for equal-content but distinct objects `s` and `t`, appending `s` makes
`getReferenceTo t` return `s`'s index — whereas an `IndexedCollection`
with `use_hash=False` keys by object identity: after appending only `s`,
`getReferenceTo t` is the miss value −1, and appending both gives them
distinct indices, each retrievable by its own identity. -/
theorem byteString_content_vs_identity (s t : PyObj) (c d : IndexedCollection)
    (hc : s.content = t.content) (hid : s.oid ≠ t.oid)
    (hcmode : c.mode = RefMode.byContent)
    (hdmode : d.mode = RefMode.byId)
    (hfresh : dictGet (RefKey.kId t.oid) d.refs = none) :
    (c.append s).1.getReferenceTo t = (c.append s).2 ∧
    (d.append s).1.getReferenceTo t = -1 ∧
    ((d.append s).1.append t).1.getReferenceTo s = (d.append s).2 ∧
    ((d.append s).1.append t).1.getReferenceTo t
      = ((d.append s).1.append t).2 ∧
    (d.append s).2 ≠ ((d.append s).1.append t).2 := by
  refine ⟨?_, ?_, ?_, ?_, ?_⟩
  · unfold IndexedCollection.getReferenceTo
    rw [append_snd_eq, show (c.append s).1.mode = c.mode from rfl,
      show (c.append s).1.refs = (refKey c.mode s, c.data.length) :: c.refs from rfl,
      hcmode]
    simp [refKey, dictGet, List.find?, hc]
  · unfold IndexedCollection.getReferenceTo
    rw [show (d.append s).1.mode = d.mode from rfl,
      show (d.append s).1.refs = (refKey d.mode s, d.data.length) :: d.refs from rfl,
      hdmode]
    rw [dictGet_cons_ne _ _ _ _ (by simp [refKey]; exact hid)]
    simp only [refKey]
    rw [hfresh]
  · unfold IndexedCollection.getReferenceTo
    rw [append_snd_eq,
      show ((d.append s).1.append t).1.mode = d.mode from rfl,
      show ((d.append s).1.append t).1.refs
        = (refKey d.mode t, (d.data ++ [s]).length)
            :: (refKey d.mode s, d.data.length) :: d.refs from rfl,
      hdmode]
    rw [dictGet_cons_ne _ _ _ _ (by simp [refKey]; exact fun hh => hid hh.symm)]
    simp [refKey, dictGet, List.find?]
  · unfold IndexedCollection.getReferenceTo
    rw [append_snd_eq,
      show ((d.append s).1.append t).1.mode = d.mode from rfl,
      show ((d.append s).1.append t).1.refs
        = (refKey d.mode t, (d.data ++ [s]).length)
            :: (refKey d.mode s, d.data.length) :: d.refs from rfl,
      hdmode]
    simp [refKey, dictGet, List.find?, IndexedCollection.append]
  · rw [append_snd_eq, append_snd_eq,
      show (d.append s).1.data = d.data ++ [s] from rfl]
    simp

/-- Witness for C3: two distinct objects carrying the byte content `[7]`,
against a fresh byte-string table and a fresh identity table. -/
theorem byteString_content_vs_identity_witness :
    (ByteStringReferenceCollection.fresh.append ⟨1, 0, [7]⟩).1.getReferenceTo
        ⟨2, 0, [7]⟩
      = (ByteStringReferenceCollection.fresh.append ⟨1, 0, [7]⟩).2 ∧
    ((IndexedCollection.fresh false).append ⟨1, 0, [7]⟩).1.getReferenceTo
        ⟨2, 0, [7]⟩ = -1 := by
  have h := byteString_content_vs_identity ⟨1, 0, [7]⟩ ⟨2, 0, [7]⟩
    ByteStringReferenceCollection.fresh (IndexedCollection.fresh false)
    rfl (by decide) rfl rfl rfl
  exact ⟨h.1, h.2.1⟩

/-- C4 counterexample: the claim's ordering statement fails on the code.
In the check table of `handleBasicTypes` (the source's `if`/`elif` chain
in source order) the byte-string and text-string tests come strictly
before the None, boolean and Undefined tests, not after them as the
spec's stated dispatch order requires. -/
theorem handleBasicTypes_order_not_spec :
    ¬ (basicChecks.findIdx (fun p => p.1 == BasicKind.boolK)
        < basicChecks.findIdx (fun p => p.1 == BasicKind.bytesK)) ∧
    ¬ (basicChecks.findIdx (fun p => p.1 == BasicKind.noneK)
        < basicChecks.findIdx (fun p => p.1 == BasicKind.strK)) ∧
    ¬ (basicChecks.findIdx (fun p => p.1 == BasicKind.undefinedK)
        < basicChecks.findIdx (fun p => p.1 == BasicKind.bytesK)) ∧
    basicChecks.findIdx (fun p => p.1 == BasicKind.bytesK)
      < basicChecks.findIdx (fun p => p.1 == BasicKind.boolK) ∧
    basicChecks.findIdx (fun p => p.1 == BasicKind.strK)
      < basicChecks.findIdx (fun p => p.1 == BasicKind.noneK) ∧
    basicChecks.findIdx (fun p => p.1 == BasicKind.strK)
      < basicChecks.findIdx (fun p => p.1 == BasicKind.undefinedK) := by decide

/-- C4 (amended): the dispatch tests byte string and text string first,
before None, boolean and the Undefined sentinel — not in the spec's
stated order.  The kind tests are mutually exclusive, so the outcome is
nevertheless order-independent: a boolean always dispatches to
`writeBoolean`, None to `writeNull`, Undefined to `writeUndefined`, a
byte string to `writeBytes`, a text string to `writeString` — a value
matching one kind is never encoded as another — and `writeElement`
consults the caches and the extension table `TYPE_MAP` only when no
built-in kind matched (whenever a built-in kind matches, the outcome is
that kind's write method). -/
theorem writeElement_dispatch (uwo : List PyType) :
    (∀ b, handleBasicTypes uwo (PyValue.boolV b)
      = some WriteAction.writeBoolean) ∧
    handleBasicTypes uwo PyValue.noneV = some WriteAction.writeNull ∧
    handleBasicTypes uwo PyValue.undefinedV
      = some WriteAction.writeUndefined ∧
    (∀ s, handleBasicTypes uwo (PyValue.bytesV s)
      = some WriteAction.writeBytes) ∧
    (∀ s, handleBasicTypes uwo (PyValue.strV s)
      = some WriteAction.writeString) ∧
    (∀ tm fc v a, handleBasicTypes uwo v = some a →
      writeElement tm fc uwo v = EncodeOutcome.wrote a) := by
  refine ⟨fun b => rfl, rfl, rfl, fun s => rfl, fun s => rfl, ?_⟩
  intro tm fc v a h
  unfold writeElement
  rw [h]

/-- Witness for C4 (amended) at the boolean `True` and an empty
`use_write_object` list. -/
theorem writeElement_dispatch_witness :
    handleBasicTypes [] (PyValue.boolV true) = some WriteAction.writeBoolean ∧
    writeElement [] [] [] (PyValue.boolV true)
      = EncodeOutcome.wrote WriteAction.writeBoolean :=
  ⟨(writeElement_dispatch []).1 true,
   (writeElement_dispatch []).2.2.2.2.2 [] [] (PyValue.boolV true)
     WriteAction.writeBoolean ((writeElement_dispatch []).1 true)⟩

/-- Unencodable host values fall through every branch of
`handleBasicTypes` (given their type is not in `use_write_object`). -/
theorem handleBasicTypes_bad_none (uwo : List PyType) (v : PyValue)
    (hbad : isBadHost v = true)
    (huwo : uwo.contains (pyType v) = false) :
    handleBasicTypes uwo v = none := by
  cases v <;>
    simp_all [handleBasicTypes, basicChecks, testBasic, is_xml, pyType,
      isBadHost, List.find?]

/-- C5: for every host value that is a module, a method, a free or
builtin function, a class object, or a bare `datetime.time`
(`isBadHost`), and that is not claimed by any `TYPE_MAP` adapter (nor by
the `func_cache` or `use_write_object` state derived from those
adapters), `Encoder.writeElement` raises `EncodeError`. -/
theorem writeElement_unencodable (tm : List (TPred × Adapter))
    (fc : List (PyType × Adapter)) (uwo : List PyType) (v : PyValue)
    (hbad : isBadHost v = true)
    (hmap : get_custom_type_func tm v = none)
    (hcache : fcLookup fc (pyType v) = none)
    (huwo : uwo.contains (pyType v) = false) :
    ∃ e, writeElement tm fc uwo v = EncodeOutcome.encodeError e := by
  have hb : handleBasicTypes uwo v = none :=
    handleBasicTypes_bad_none uwo v hbad huwo
  refine ⟨(checkBadTypes v).getD BadKind.moduleErr, ?_⟩
  unfold writeElement
  rw [hb, hcache, hmap]
  cases v <;> simp_all [checkBadTypes, pyType, isBadHost]

/-- Witness for C5: a module value, an empty `TYPE_MAP` and a fresh
encoder state. -/
theorem writeElement_unencodable_witness :
    isBadHost (PyValue.moduleV 0) = true ∧
    (∃ e, writeElement [] [] [] (PyValue.moduleV 0)
      = EncodeOutcome.encodeError e) :=
  ⟨by decide,
   writeElement_unencodable [] [] [] (PyValue.moduleV 0)
     (by decide) rfl rfl (by decide)⟩

/-- First-match behaviour of `get_custom_type_func` over an explicitly
split `TYPE_MAP`. -/
theorem get_custom_first_match (pre post : List (TPred × Adapter)) (p : TPred)
    (f : Adapter) (v : PyValue)
    (hpre : ∀ e ∈ pre, predMatches e.1 v = false)
    (hm : predMatches p v = true) :
    get_custom_type_func (pre ++ (p, f) :: post) v = some f := by
  induction pre with
  | nil => simp [get_custom_type_func, List.find?, hm]
  | cons e pre ih =>
    have he : predMatches e.1 v = false := hpre e (List.mem_cons_self e pre)
    simp only [get_custom_type_func, List.cons_append, List.find?, he]
    exact ih (fun e' he' => hpre e' (List.mem_cons_of_mem e he'))

/-- C9: `TYPE_MAP` entries are matched in order — the first entry whose
predicate matches wins; a class predicate matches by instance-of and a
callable predicate by calling it on the value — and the matching adapter
is invoked with the value: when it returns a replacement `r` the
dispatcher recurses on `r` via `writeElement` (`customRecursed r`), and
when it returns `None` nothing further is written (`customWrote`);
`writeElement` hands values not handled by built-in dispatch (and not in
the `func_cache`) to exactly that adapter call. -/
theorem type_map_dispatch (pre post : List (TPred × Adapter)) (p : TPred)
    (f : Adapter) (v : PyValue)
    (hpre : ∀ e ∈ pre, predMatches e.1 v = false)
    (hm : predMatches p v = true) :
    get_custom_type_func (pre ++ (p, f) :: post) v = some f ∧
    (∀ t, predMatches (TPred.byClass t) v = decide (pyType v = t)) ∧
    (∀ g, predMatches (TPred.byCallable g) v = g v) ∧
    (∀ r, f v = some r →
      customTypeCall f v = EncodeOutcome.customRecursed r) ∧
    (f v = none → customTypeCall f v = EncodeOutcome.customWrote) ∧
    (∀ fc uwo, handleBasicTypes uwo v = none →
      fcLookup fc (pyType v) = none →
      writeElement (pre ++ (p, f) :: post) fc uwo v = customTypeCall f v) := by
  have hfind := get_custom_first_match pre post p f v hpre hm
  refine ⟨hfind, fun t => rfl, fun g => rfl, ?_, ?_, ?_⟩
  · intro r hr
    unfold customTypeCall
    rw [hr]
  · intro hr
    unfold customTypeCall
    rw [hr]
  · intro fc uwo hb hfc
    unfold writeElement
    rw [hb, hfc, hfind]

/-- Witness for C9: a two-entry `TYPE_MAP` whose first (callable)
predicate rejects the value and whose second (class) predicate matches
it; the adapter returns a replacement, so the dispatcher recurses. -/
theorem type_map_dispatch_witness :
    get_custom_type_func
        [(TPred.byCallable (fun _ => false), (fun _ => none : Adapter)),
         (TPred.byClass (PyType.userT 0), (fun _ => some PyValue.noneV : Adapter))]
        (PyValue.objV 0 0)
      = some (fun _ => some PyValue.noneV : Adapter) ∧
    customTypeCall (fun _ => some PyValue.noneV : Adapter) (PyValue.objV 0 0)
      = EncodeOutcome.customRecursed PyValue.noneV ∧
    writeElement
        [(TPred.byCallable (fun _ => false), (fun _ => none : Adapter)),
         (TPred.byClass (PyType.userT 0), (fun _ => some PyValue.noneV : Adapter))]
        [] [] (PyValue.objV 0 0)
      = customTypeCall (fun _ => some PyValue.noneV : Adapter) (PyValue.objV 0 0) := by
  have h := type_map_dispatch
    [(TPred.byCallable (fun _ => false), (fun _ => none : Adapter))] []
    (TPred.byClass (PyType.userT 0)) (fun _ => some PyValue.noneV : Adapter)
    (PyValue.objV 0 0)
    (by intro e he; rw [List.mem_singleton] at he; rw [he]; rfl)
    rfl
  exact ⟨h.1, h.2.2.2.1 PyValue.noneV rfl, h.2.2.2.2.2 [] [] rfl rfl⟩

/-- C6: when the decoder's stream is exhausted at a value boundary (at
eof before a marker byte is read), the iterator's `__next__` yields
`StopIteration` — normal exhaustion, with the stream untouched — while
every error other than the end-of-stream signal raised during a
top-level decode propagates out of `__next__` unchanged. -/
theorem decoderNext_eos_vs_error (rc : ReadConcrete)
    (procs : List (PyValue → PyValue)) (s : DecStream) :
    (s.at_eof = true → decoderNext rc procs s = (s, NextOutcome.stopIteration)) ∧
    (∀ s1 e, e ≠ DecErr.eos → readElement rc procs 0 s = (s1, Except.error e) →
      decoderNext rc procs s = (s1, NextOutcome.raised e)) := by
  constructor
  · intro h
    unfold decoderNext readElement readElementRaw
    rw [h]
    simp
  · intro s1 e hne h
    unfold decoderNext
    rw [h]
    cases e with
    | eos => exact absurd rfl hne
    | ioError n => rfl
    | otherErr n => rfl

/-- Witness for C6: an empty stream stops the iteration; a reader that
fails with a non-end-of-stream error propagates it. -/
theorem decoderNext_eos_vs_error_witness :
    (DecStream.at_eof ⟨[], 0⟩ = true ∧
      decoderNext (fun _ s => (s, Except.error (DecErr.otherErr 7))) [] ⟨[], 0⟩
        = (⟨[], 0⟩, NextOutcome.stopIteration)) ∧
    (DecErr.otherErr 7 ≠ DecErr.eos ∧
      decoderNext (fun _ s => (s, Except.error (DecErr.otherErr 7))) [] ⟨[9], 0⟩
        = (⟨[9], 1⟩, NextOutcome.raised (DecErr.otherErr 7))) :=
  ⟨⟨rfl, (decoderNext_eos_vs_error _ [] ⟨[], 0⟩).1 rfl⟩,
   ⟨by decide,
    (decoderNext_eos_vs_error _ [] ⟨[9], 0⟩).2 ⟨[9], 1⟩ (DecErr.otherErr 7)
      (by decide) rfl⟩⟩

/-- C7: when `readElement` fails mid-value because the stream ran out of
bytes after the marker byte (the concrete reader raises an `IOError`),
the stream cursor is restored to the position where the element began
before the error propagates. -/
theorem readElement_restores_pos_on_ioerror (rc : ReadConcrete)
    (procs : List (PyValue → PyValue)) (depth : Nat) (s s2 : DecStream) (n : Nat)
    (hne : s.at_eof = false)
    (hrc : rc (s.read_char).1 (s.read_char).2
      = (s2, Except.error (DecErr.ioError n))) :
    readElement rc procs depth s
      = ({ s2 with pos := s.pos }, Except.error (DecErr.ioError n)) ∧
    (readElement rc procs depth s).1.pos = s.pos := by
  have h1 : readElementRaw rc s
      = ({ s2 with pos := s.pos }, Except.error (DecErr.ioError n)) := by
    unfold readElementRaw
    rw [hne]
    simp only [Bool.false_eq_true, if_false]
    rw [hrc]
    rfl
  have h2 : readElement rc procs depth s
      = ({ s2 with pos := s.pos }, Except.error (DecErr.ioError n)) := by
    unfold readElement
    rw [h1]
  exact ⟨h2, by rw [h2]⟩

/-- Witness for C7: a three-byte stream whose concrete reader consumes
four positions and then fails with an `IOError`; the cursor comes back
to 0. -/
theorem readElement_restores_pos_on_ioerror_witness :
    DecStream.at_eof ⟨[9, 9, 9], 0⟩ = false ∧
    readElement
        (fun _ s => ({ s with pos := s.pos + 4 },
          Except.error (DecErr.ioError 1))) [] 0 ⟨[9, 9, 9], 0⟩
      = (⟨[9, 9, 9], 0⟩, Except.error (DecErr.ioError 1)) :=
  ⟨rfl,
   (readElement_restores_pos_on_ioerror
      (fun _ s => ({ s with pos := s.pos + 4 },
        Except.error (DecErr.ioError 1)))
      [] 0 ⟨[9, 9, 9], 0⟩ ⟨[9, 9, 9], 5⟩ 1 rfl rfl).1⟩

/-- C8: a top-level `readElement` (decoder depth 0) applies every
registered `POST_DECODE_PROCESSORS` function exactly once, in order —
a left fold — to the outermost decoded value only; a nested (recursive)
`readElement` call, at depth ≥ 1, returns the decoded value untouched by
the processors. -/
theorem finalise_top_level_only (rc : ReadConcrete)
    (procs : List (PyValue → PyValue)) (s s1 : DecStream) (v : PyValue)
    (h : readElementRaw rc s = (s1, Except.ok v)) :
    readElement rc procs 0 s
      = (s1, Except.ok (procs.foldl (fun payload c => c payload) v)) ∧
    (∀ depth, depth ≠ 0 → readElement rc procs depth s = (s1, Except.ok v)) := by
  constructor
  · unfold readElement
    rw [h]
    rfl
  · intro depth hd
    unfold readElement
    rw [h]
    simp [hd]

/-- Witness for C8: one registered processor that replaces the payload
with None; it is applied to a top-level decode and not to a nested
one. -/
theorem finalise_top_level_only_witness :
    readElementRaw (fun t s => (s, Except.ok (PyValue.intV t))) ⟨[5], 0⟩
      = (⟨[5], 1⟩, Except.ok (PyValue.intV 5)) ∧
    readElement (fun t s => (s, Except.ok (PyValue.intV t)))
        [fun _ => PyValue.noneV] 0 ⟨[5], 0⟩
      = (⟨[5], 1⟩, Except.ok PyValue.noneV) ∧
    readElement (fun t s => (s, Except.ok (PyValue.intV t)))
        [fun _ => PyValue.noneV] 1 ⟨[5], 0⟩
      = (⟨[5], 1⟩, Except.ok (PyValue.intV 5)) :=
  ⟨rfl,
   (finalise_top_level_only (fun t s => (s, Except.ok (PyValue.intV t)))
      [fun _ => PyValue.noneV] ⟨[5], 0⟩ ⟨[5], 1⟩ (PyValue.intV 5) rfl).1,
   (finalise_top_level_only (fun t s => (s, Except.ok (PyValue.intV t)))
      [fun _ => PyValue.noneV] ⟨[5], 0⟩ ⟨[5], 1⟩ (PyValue.intV 5) rfl).2 1
      (by decide)⟩

/-- C10: for every reference table and every integer `ref` outside
`[0, table length)`, `getByReference(ref)` returns `None` — the lookup
is total at this layer and signals the miss by `None` rather than
raising or reading out of bounds. -/
theorem getByReference_out_of_range (c : IndexedCollection) (ref : Int)
    (h : ref < 0 ∨ (c.data.length : Int) ≤ ref) :
    c.getByReference ref = none := by
  unfold IndexedCollection.getByReference
  rw [if_pos h]

/-- Witness for C10: a one-entry table, probed past the end and at a
negative index. -/
theorem getByReference_out_of_range_witness :
    (((5 : Int) < 0 ∨
        (((IndexedCollection.fresh false).append ⟨1, 0, []⟩).1.data.length : Int)
          ≤ 5) ∧
      ((IndexedCollection.fresh false).append ⟨1, 0, []⟩).1.getByReference 5
        = none) ∧
    ((-1 : Int) < 0 ∨
      (((IndexedCollection.fresh false).append ⟨1, 0, []⟩).1.data.length : Int)
        ≤ -1) ∧
    ((IndexedCollection.fresh false).append ⟨1, 0, []⟩).1.getByReference (-1)
      = none :=
  ⟨⟨by decide, getByReference_out_of_range _ 5 (by decide)⟩,
   by decide, getByReference_out_of_range _ (-1) (by decide)⟩
